import Mathlib

/-!
Shallow embedding of the runtime core of the `@safekit/safe-http` HTTP client
(sources: `src/client-utils.ts`, `src/libs/parser.ts`, `src/client.ts`),
together with theorems settling the frozen claims about it.

JavaScript runtime values are modelled by the inductive type `JsVal`
(`undefined`, `null`, booleans, numbers restricted to integers, strings,
arrays, plain objects as association lists).  Platform classes that the source
type-tests with `instanceof` (`FormData`, `URLSearchParams`, `Blob`,
`ArrayBuffer`) lie outside this value universe; the branches guarded by those
tests are noted in comments where they are elided.  Asynchronous code is
modelled by its settled result: a promise that fulfills is an `Except.ok`,
a promise that rejects (or a `throw`) is an `Except.error`.
-/

set_option autoImplicit false

namespace SafeHttp

-- Model of a JavaScript runtime value (integers stand in for JS numbers).
-- Arrays and objects carry their own list types (`JsList`, `JsFields`) so
-- that every traversal below is plain structural recursion.
mutual

/-- A JavaScript runtime value. -/
inductive JsVal where
  | undef
  | null
  | boolV (b : Bool)
  | numV (n : Int)
  | strV (s : String)
  | arrV (elems : JsList)
  | objV (fields : JsFields)

/-- A list of JavaScript values (array contents). -/
inductive JsList where
  | nil
  | cons (head : JsVal) (tail : JsList)

/-- Ordered fields of a JavaScript object. -/
inductive JsFields where
  | nil
  | cons (key : String) (value : JsVal) (tail : JsFields)

end

deriving instance DecidableEq for JsVal, JsList, JsFields

/-- Build a `JsList` from a `List`. -/
def JsList.ofList : List JsVal → JsList
  | [] => .nil
  | x :: xs => .cons x (JsList.ofList xs)

/-- View a `JsList` as a `List`. -/
def JsList.toList : JsList → List JsVal
  | .nil => []
  | .cons x xs => x :: xs.toList

/-- Build `JsFields` from an association list. -/
def JsFields.ofList : List (String × JsVal) → JsFields
  | [] => .nil
  | (k, v) :: xs => .cons k v (JsFields.ofList xs)

/-- View `JsFields` as an association list. -/
def JsFields.toList : JsFields → List (String × JsVal)
  | .nil => []
  | .cons k v xs => (k, v) :: xs.toList

/-- Array literal helper. -/
def JsVal.arr (xs : List JsVal) : JsVal := .arrV (JsList.ofList xs)

/-- Object literal helper. -/
def JsVal.obj (fs : List (String × JsVal)) : JsVal := .objV (JsFields.ofList fs)

/-- JS truthiness (`if (v)`).  `NaN` is not representable, so numbers are
falsy exactly when zero. -/
def truthy : JsVal → Bool
  | .undef => false
  | .null => false
  | .boolV b => b
  | .numV n => n != 0
  | .strV s => s != ""
  | .arrV _ => true
  | .objV _ => true

/-- `v === undefined` test. -/
def JsVal.isUndef : JsVal → Bool
  | .undef => true
  | _ => false

/-- `isObject` from `client-utils.ts`:
`typeof value === 'object' && value !== null && !Array.isArray(value)`. -/
def isObject : JsVal → Bool
  | .objV _ => true
  | _ => false

/-- `Array.isArray`. -/
def isArray : JsVal → Bool
  | .arrV _ => true
  | _ => false

mutual

/-- `String(v)` coercion: arrays join their elements with `","`, with `null`
and `undefined` elements printed as the empty string. -/
def jsToString : JsVal → String
  | .undef => "undefined"
  | .null => "null"
  | .boolV b => if b then "true" else "false"
  | .numV n => toString n
  | .strV s => s
  | .objV _ => "[object Object]"
  | .arrV xs => jsListToString xs

/-- `Array.prototype.toString` worker: comma-joined elements. -/
def jsListToString : JsList → String
  | .nil => ""
  | .cons x tail =>
      let s :=
        match x with
        | .undef => ""
        | .null => ""
        | v => jsToString v
      match tail with
      | .nil => s
      | t => s ++ "," ++ jsListToString t

end

/-- `Object.entries(v)`: fields of an object, indexed elements of an array or
string, and `[]` for primitives. -/
def jsEntries : JsVal → List (String × JsVal)
  | .objV fields => fields.toList
  | .arrV xs => (xs.toList.enum).map fun p => (toString p.1, p.2)
  | .strV s => (s.data.enum).map fun p => (toString p.1, JsVal.strV (String.singleton p.2))
  | _ => []

-- ==================================================================
-- Percent encoding (`encodeURIComponent` and `URLSearchParams` form
-- encoding, as used by `client-utils.ts`)
-- ==================================================================

/-- Upper-case hex digit of a value `< 16`. -/
def hexDigit (n : Nat) : Char :=
  if n < 10 then Char.ofNat (48 + n) else Char.ofNat (55 + n)

/-- `%XX` escape of one byte. -/
def pctByte (b : Nat) : List Char :=
  ['%', hexDigit (b / 16 % 16), hexDigit (b % 16)]

/-- UTF-8 bytes of one character (as used by both URL encoders). -/
def utf8Bytes (c : Char) : List Nat :=
  let n := c.toNat
  if n < 0x80 then [n]
  else if n < 0x800 then [0xC0 + n / 64, 0x80 + n % 64]
  else if n < 0x10000 then [0xE0 + n / 4096, 0x80 + n / 64 % 64, 0x80 + n % 64]
  else [0xF0 + n / 262144, 0x80 + n / 4096 % 64, 0x80 + n / 64 % 64, 0x80 + n % 64]

def isAsciiAlphaNum (c : Char) : Bool :=
  ('A' ≤ c && c ≤ 'Z') || ('a' ≤ c && c ≤ 'z') || ('0' ≤ c && c ≤ '9')

/-- Characters `encodeURIComponent` leaves unescaped. -/
def uriComponentSafe (c : Char) : Bool :=
  isAsciiAlphaNum c || c ∈ ['-', '_', '.', '!', '~', '*', '\'', '(', ')']

/-- `encodeURIComponent`. -/
def encodeURIComponent (s : String) : String :=
  ⟨s.data.flatMap fun c =>
    if uriComponentSafe c then [c] else (utf8Bytes c).flatMap pctByte⟩

/-- Characters `URLSearchParams.toString` leaves unescaped
(`application/x-www-form-urlencoded` set). -/
def formSafe (c : Char) : Bool :=
  isAsciiAlphaNum c || c ∈ ['*', '-', '.', '_']

/-- `application/x-www-form-urlencoded` escape of one string
(space becomes `+`). -/
def formEncode (s : String) : String :=
  ⟨s.data.flatMap fun c =>
    if formSafe c then [c]
    else if c = ' ' then ['+']
    else (utf8Bytes c).flatMap pctByte⟩

-- ==================================================================
-- `mergePath` (client-utils.ts)
-- ==================================================================

/-- `base.replace(/\/+$/, '')`: strip every trailing slash. -/
def rstripSlashes (s : String) : String :=
  ⟨(s.data.reverse.dropWhile (· == '/')).reverse⟩

/-- `path.replace(/^\/+/, '')`: strip every leading slash. -/
def lstripSlashes (s : String) : String :=
  ⟨s.data.dropWhile (· == '/')⟩

/-- `mergePath` from `client-utils.ts`. -/
def mergePath (base path : String) : String :=
  rstripSlashes base ++ "/" ++ lstripSlashes path

-- ==================================================================
-- `replaceUrlParams` (client-utils.ts)
-- ==================================================================

/-- Lookahead `(?=\/|$|\?|#)` after a matched placeholder. -/
def boundaryOk : List Char → Bool
  | [] => true
  | c :: _ => c == '/' || c == '?' || c == '#'

/-- One pass of `result.replace(new RegExp(":" + key + "(?=\\/|$|\\?|#)", "g"), val)`
on the character list; the regex scans left to right and resumes after each
match (the lookahead is not consumed).  Keys are taken literally (parameter
names contain no regex metacharacters).  The fuel argument is always
instantiated with the length of the list. -/
def replaceAux (key val : List Char) : Nat → List Char → List Char
  | 0, l => l
  | _ + 1, [] => []
  | fuel + 1, c :: rest =>
      if c == ':' && key.isPrefixOf rest && boundaryOk (rest.drop key.length) then
        val ++ replaceAux key val fuel (rest.drop key.length)
      else
        c :: replaceAux key val fuel rest

/-- Replace every bounded `:key` occurrence by `val`. -/
def replaceOneKey (key val s : String) : String :=
  ⟨replaceAux key.data val.data s.data.length s.data⟩

/-- `replaceUrlParams` from `client-utils.ts`: one replacement pass per
params entry, in entry order, skipping `undefined` values; the substituted
value is `encodeURIComponent(value)` (with JS string coercion). -/
def replaceUrlParams (urlString : String) (params : List (String × JsVal)) : String :=
  params.foldl
    (fun result kv =>
      if kv.2.isUndef then result
      else replaceOneKey kv.1 (encodeURIComponent (jsToString kv.2)) result)
    urlString

/-- Is there a `:key` occurrence bounded on the right by `/`, end of string,
`?` or `#`? (Scan mirroring the regex used by `replaceUrlParams`.) -/
def hasBoundedOcc (key : List Char) : List Char → Bool
  | [] => false
  | c :: rest =>
      (c == ':' && key.isPrefixOf rest && boundaryOk (rest.drop key.length))
        || hasBoundedOcc key rest

-- ==================================================================
-- `buildSearchParams` (client-utils.ts) and `URLSearchParams`
-- ==================================================================

/-- `URLSearchParams.append`. -/
def uspAppend (ps : List (String × String)) (k v : String) : List (String × String) :=
  ps ++ [(k, v)]

/-- `URLSearchParams.set`: replace the first pair with this key and drop the
others, else append. -/
def uspSet (ps : List (String × String)) (k v : String) : List (String × String) :=
  match ps with
  | [] => [(k, v)]
  | (k0, v0) :: rest =>
      if k0 == k then (k, v) :: rest.filter (fun p => p.1 != k)
      else (k0, v0) :: uspSet rest k v

/-- Pairs contributed by one `buildSearchParams` loop iteration, applied to the
accumulated search parameters. -/
def buildSearchStep (ps : List (String × String)) (kv : String × JsVal) :
    List (String × String) :=
  match kv.2 with
  | .undef => ps
  | .null => ps
  | .arrV items =>
      items.toList.foldl
        (fun acc item =>
          match item with
          | .undef => acc
          | .null => acc
          | v => uspAppend acc kv.1 (jsToString v))
        ps
  | v => uspSet ps kv.1 (jsToString v)

/-- `buildSearchParams` from `client-utils.ts`, as the final pair list of the
`URLSearchParams` it builds. -/
def buildSearchParams (query : List (String × JsVal)) : List (String × String) :=
  query.foldl buildSearchStep []

/-- `URLSearchParams.toString`. -/
def uspToString (ps : List (String × String)) : String :=
  String.intercalate "&" (ps.map fun p => formEncode p.1 ++ "=" ++ formEncode p.2)

-- ==================================================================
-- JSON serialization (`JSON.stringify`, as used by `serializeBody`)
-- ==================================================================

/-- JSON string escaping of one character. -/
def jsonEscapeChar (c : Char) : List Char :=
  if c = '"' then ['\\', '"']
  else if c = '\\' then ['\\', '\\']
  else if c = '\n' then ['\\', 'n']
  else if c = '\t' then ['\\', 't']
  else if c = '\r' then ['\\', 'r']
  else if c.toNat < 0x20 then
    ['\\', 'u', '0', '0', hexDigit (c.toNat / 16), hexDigit (c.toNat % 16)]
  else [c]

/-- JSON quoting of a string. -/
def jsonQuote (s : String) : String :=
  ⟨'"' :: s.data.flatMap jsonEscapeChar ++ ['"']⟩

mutual

/-- `JSON.stringify`; `none` models the `undefined` result (top-level
`undefined`; functions are not representable here). -/
def jsonStringify : JsVal → Option String
  | .undef => none
  | .null => some "null"
  | .boolV b => some (if b then "true" else "false")
  | .numV n => some (toString n)
  | .strV s => some (jsonQuote s)
  | .arrV xs => some ("[" ++ String.intercalate "," (jsonStringifyList xs) ++ "]")
  | .objV fs => some ("\x7b" ++ String.intercalate "," (jsonStringifyFields fs) ++ "\x7d")

/-- Rendered array elements (`undefined` elements print as `null`). -/
def jsonStringifyList : JsList → List String
  | .nil => []
  | .cons x tail => ((jsonStringify x).getD "null") :: jsonStringifyList tail

/-- Rendered object members (`undefined`-valued keys are skipped). -/
def jsonStringifyFields : JsFields → List String
  | .nil => []
  | .cons k v tail =>
      match jsonStringify v with
      | none => jsonStringifyFields tail
      | some sv => (jsonQuote k ++ ":" ++ sv) :: jsonStringifyFields tail

end

-- ==================================================================
-- JSON parsing (`JSON.parse`, used by `getContentType` on string bodies
-- and by `Response.json()` during response validation).  Integer numerals
-- only: non-integer JSON numerals are outside the modelled value universe.
-- ==================================================================

/-- Error values: a rejected promise / thrown exception, by provenance. -/
inductive JsErr where
  | userError (e : JsVal)
  | standardSchemaError (issues : List String)
  | configError (msg : String)
  | jsonError (msg : String)
  deriving DecidableEq

deriving instance DecidableEq for Except

/-- JSON whitespace skip. -/
def skipWs (cs : List Char) : List Char :=
  cs.dropWhile fun c => c == ' ' || c == '\n' || c == '\t' || c == '\r'

/-- Parse the body of a JSON string literal (after the opening quote),
returning the string and the remaining characters.  Escapes cover the
sequences produced by `jsonEscapeChar`; `\uXXXX` is accepted for
four hex digits.  The fuel is instantiated with the input length. -/
def parseJsonString : Nat → List Char → Except JsErr (String × List Char)
  | 0, _ => .error (.jsonError "unterminated string")
  | _ + 1, [] => .error (.jsonError "unterminated string")
  | _ + 1, '"' :: rest => .ok ("", rest)
  | fuel + 1, '\\' :: e :: rest =>
      let decoded : Except JsErr (Char × List Char) :=
        if e = '"' then .ok ('"', rest)
        else if e = '\\' then .ok ('\\', rest)
        else if e = '/' then .ok ('/', rest)
        else if e = 'n' then .ok ('\n', rest)
        else if e = 't' then .ok ('\t', rest)
        else if e = 'r' then .ok ('\r', rest)
        else if e = 'b' then .ok ('\x08', rest)
        else if e = 'f' then .ok ('\x0c', rest)
        else if e = 'u' then
          match rest with
          | a :: b :: c :: d :: rest' =>
              let hv := fun (x : Char) =>
                if '0' ≤ x ∧ x ≤ '9' then some (x.toNat - 48)
                else if 'a' ≤ x ∧ x ≤ 'f' then some (x.toNat - 87)
                else if 'A' ≤ x ∧ x ≤ 'F' then some (x.toNat - 55)
                else none
              match hv a, hv b, hv c, hv d with
              | some ha, some hb, some hc, some hd =>
                  .ok (Char.ofNat (((ha * 16 + hb) * 16 + hc) * 16 + hd), rest')
              | _, _, _, _ => .error (.jsonError "bad unicode escape")
          | _ => .error (.jsonError "bad unicode escape")
        else .error (.jsonError "bad escape")
      match decoded with
      | .error err => .error err
      | .ok (c, rest') =>
          match parseJsonString fuel rest' with
          | .error err => .error err
          | .ok (s, rem) => .ok (String.singleton c ++ s, rem)
  | fuel + 1, c :: rest =>
      match parseJsonString fuel rest with
      | .error err => .error err
      | .ok (s, rem) => .ok (String.singleton c ++ s, rem)

/-- Parse a run of decimal digits as a `Nat` (with at-least-one check). -/
def parseDigits (cs : List Char) : Except JsErr (Nat × List Char) :=
  let digits := cs.takeWhile fun c => '0' ≤ c && c ≤ '9'
  if digits.isEmpty then .error (.jsonError "expected digits")
  else .ok (digits.foldl (fun n c => n * 10 + (c.toNat - 48)) 0, cs.drop digits.length)

mutual

/-- Parse one JSON value; fuel bounds nesting and is instantiated with the
input length, which always suffices. -/
def parseJsonVal : Nat → List Char → Except JsErr (JsVal × List Char)
  | 0, _ => .error (.jsonError "input too deep")
  | fuel + 1, cs =>
      match skipWs cs with
      | [] => .error (.jsonError "unexpected end of input")
      | c :: rest =>
          if c = 'n' then
            if rest.take 3 = ['u', 'l', 'l'] then .ok (.null, rest.drop 3)
            else .error (.jsonError "bad literal")
          else if c = 't' then
            if rest.take 3 = ['r', 'u', 'e'] then .ok (.boolV true, rest.drop 3)
            else .error (.jsonError "bad literal")
          else if c = 'f' then
            if rest.take 4 = ['a', 'l', 's', 'e'] then .ok (.boolV false, rest.drop 4)
            else .error (.jsonError "bad literal")
          else if c = '"' then
            match parseJsonString (rest.length + 1) rest with
            | .error err => .error err
            | .ok (s, rem) => .ok (.strV s, rem)
          else if c = '[' then
            parseJsonArr fuel (skipWs rest) true
          else if c = Char.ofNat 123 then
            parseJsonObj fuel (skipWs rest) true
          else if c = '-' then
            match parseDigits rest with
            | .error err => .error err
            | .ok (n, rem) => .ok (.numV (-(n : Int)), rem)
          else if '0' ≤ c ∧ c ≤ '9' then
            match parseDigits (c :: rest) with
            | .error err => .error err
            | .ok (n, rem) => .ok (.numV (n : Int), rem)
          else .error (.jsonError "unexpected character")

/-- Parse the elements of a JSON array after `[` (whitespace already
skipped); `first` marks that no element has been consumed yet. -/
def parseJsonArr : Nat → List Char → Bool → Except JsErr (JsVal × List Char)
  | 0, _, _ => .error (.jsonError "input too deep")
  | fuel + 1, cs, first =>
      match cs with
      | ']' :: rest =>
          if first then .ok (.arrV .nil, rest)
          else .error (.jsonError "trailing comma")
      | _ =>
          match parseJsonVal fuel cs with
          | .error err => .error err
          | .ok (v, rem) =>
              match skipWs rem with
              | ',' :: rem' =>
                  match parseJsonArr fuel (skipWs rem') false with
                  | .error err => .error err
                  | .ok (.arrV tail, rem'') => .ok (.arrV (.cons v tail), rem'')
                  | .ok _ => .error (.jsonError "bad array")
              | ']' :: rem' => .ok (.arrV (.cons v .nil), rem')
              | _ => .error (.jsonError "bad array")

/-- Parse the members of a JSON object after the opening brace (whitespace
already skipped); `first` marks that no member has been consumed yet. -/
def parseJsonObj : Nat → List Char → Bool → Except JsErr (JsVal × List Char)
  | 0, _, _ => .error (.jsonError "input too deep")
  | fuel + 1, cs, first =>
      match cs with
      | [] => .error (.jsonError "unterminated object")
      | c :: rest =>
          if c = Char.ofNat 125 then
            if first then .ok (.objV .nil, rest)
            else .error (.jsonError "trailing comma")
          else if c = '"' then
            match parseJsonString (rest.length + 1) rest with
            | .error err => .error err
            | .ok (k, rem) =>
                match skipWs rem with
                | ':' :: rem' =>
                    match parseJsonVal fuel rem' with
                    | .error err => .error err
                    | .ok (v, rem'') =>
                        match skipWs rem'' with
                        | ',' :: rem3 =>
                            match parseJsonObj fuel (skipWs rem3) false with
                            | .error err => .error err
                            | .ok (.objV tail, rem4) =>
                                .ok (.objV (.cons k v tail), rem4)
                            | .ok _ => .error (.jsonError "bad object")
                        | c2 :: rem3 =>
                            if c2 = Char.ofNat 125 then .ok (.objV (.cons k v .nil), rem3)
                            else .error (.jsonError "bad object")
                        | [] => .error (.jsonError "bad object")
                | _ => .error (.jsonError "expected colon")
          else .error (.jsonError "bad object key")

end

/-- `JSON.parse`. -/
def jsonParse (s : String) : Except JsErr JsVal :=
  match parseJsonVal (s.data.length + 1) s.data with
  | .error err => .error err
  | .ok (v, rem) =>
      if (skipWs rem).isEmpty then .ok v
      else .error (.jsonError "trailing characters")

-- ==================================================================
-- `getContentType` and `serializeBody` (client-utils.ts)
-- ==================================================================

/-- `getContentType` from `client-utils.ts`.  The `instanceof FormData` /
`instanceof URLSearchParams` branches concern platform class instances that
lie outside the modelled value universe and are elided; for all modelled
values the source checks are `typeof body === 'string'` (with a `JSON.parse`
probe) and then `isObject`. -/
def getContentType : JsVal → Option String
  | .strV s =>
      match jsonParse s with
      | .ok _ => some "application/json"
      | .error _ => some "text/plain"
  | v => if isObject v then some "application/json" else none

/-- `serializeBody` from `client-utils.ts`.  The pass-through branches for
`FormData`, `URLSearchParams`, `Blob` and `ArrayBuffer` instances are elided
for the same reason; for modelled values the branches are: nullish bodies
produce no body, strings pass through, objects and arrays JSON-serialize,
and everything else is string-coerced. -/
def serializeBody : JsVal → Option String
  | .undef => none
  | .null => none
  | .strV s => some s
  | v => if isObject v || isArray v then jsonStringify v else some (jsToString v)

-- ==================================================================
-- Schema validator adapter (`createParseFn`, src/libs/parser.ts)
-- ==================================================================

/-- The uniform parse function produced by the adapter (async collapsed to
its settled result). -/
abbrev ParseFn := JsVal → Except JsErr JsVal

/-- Result of the Standard Schema `~standard.validate` entry point:
`issues` is `none` when the field is absent (or nullish) and `some l`
when an issues array is present — even an empty one. -/
structure StdResult where
  issues : Option (List String)
  value : JsVal

/-- Runtime capabilities of a validator value, mirroring the property
probes of `createParseFn`: each field is `some` exactly when the
corresponding property test (`typeof parser === "function"`,
`typeof parser.assert === "function"`, `typeof parser.parseAsync ===
"function"`, …, `"~standard" in parser`) succeeds on the value. -/
structure ParserShape where
  callable : Option ParseFn := none
  assertFn : Option ParseFn := none
  parseAsync : Option ParseFn := none
  parse : Option ParseFn := none
  validateSync : Option ParseFn := none
  create : Option ParseFn := none
  standard : Option (JsVal → StdResult) := none

/-- A `SchemaValidator` value: `none` is the explicit `null` "skip
validation" marker. -/
abbrev SchemaVal := Option ParserShape

/-- Branches 3–9 of `createParseFn`, reached when the value either is not
callable or is callable but carries the Standard Schema marker without an
assert method. -/
def parseFnChain (p : ParserShape) : Except JsErr ParseFn :=
  match p.parseAsync with
  | some f => .ok f
  | none =>
    match p.parse with
    | some f => .ok f
    | none =>
      match p.validateSync with
      | some f => .ok f
      | none =>
        match p.create with
        | some f => .ok f
        | none =>
          match p.assertFn with
          | some a =>
              -- Scale-style assert: run for effect, return the input.
              .ok fun v => match a v with
                | .error e => .error e
                | .ok _ => .ok v
          | none =>
            match p.standard with
            | some sv =>
                -- `if (result.issues) throw new StandardSchemaV1Error(...)`:
                -- a *present* issues array is truthy even when empty.
                .ok fun v =>
                  let r := sv v
                  match r.issues with
                  | some iss => .error (.standardSchemaError iss)
                  | none => .ok r.value
            | none => .error (.configError "Could not find a compatible parser method")

/-- `createParseFn` from `src/libs/parser.ts`.  A thrown configuration
error is modelled as `Except.error`; every other case yields the normalized
parse function. -/
def createParseFn : SchemaVal → Except JsErr ParseFn
  | none => .ok fun v => .ok v
  | some p =>
    match p.callable, p.assertFn with
    | some _, some a => .ok a
    | some f, none => if p.standard.isSome then parseFnChain p else .ok f
    | none, _ => parseFnChain p

-- ==================================================================
-- Route definitions (src/types/http-route-definition.ts)
-- ==================================================================

/-- A response descriptor: either a plain description string or an object
with a `description` and an optional `schema` (which may itself be the
`null` marker). -/
inductive ResponseDescr where
  | text (description : String)
  | full (description : String) (schema : Option SchemaVal)

/-- The optional `request` slots of a route definition.  For each slot,
`none` models an absent property and `some none` the explicit `null`
marker. -/
structure RequestSlots where
  params : Option SchemaVal := none
  query : Option SchemaVal := none
  body : Option SchemaVal := none
  headers : Option SchemaVal := none

/-- An `HttpRouteDefinition` (descriptive metadata fields are carried by the
source type but never read by the runtime core, so they are omitted). -/
structure RouteDef where
  path : String
  method : String
  request : Option RequestSlots := none
  responses : List (Nat × ResponseDescr) := []

/-- The four request slots, in the order `validateRequest` processes them. -/
inductive Slot where
  | params
  | query
  | body
  | headers
  deriving DecidableEq

/-- Processing position of a slot inside `validateRequest`. -/
def slotIdx : Slot → Nat
  | .params => 0
  | .query => 1
  | .body => 2
  | .headers => 3

/-- `this.route.request?.<slot>`. -/
def declOf (route : RouteDef) : Slot → Option SchemaVal :=
  fun s =>
    match route.request with
    | none => none
    | some r =>
      match s with
      | .params => r.params
      | .query => r.query
      | .body => r.body
      | .headers => r.headers

/-- Truthiness of `this.route.request?.<slot>`: both an absent slot and the
explicit `null` marker are falsy; any validator object or function is
truthy. -/
def declTruthy : Option SchemaVal → Bool
  | some (some _) => true
  | _ => false

/-- Call arguments (`args`); a field holds `JsVal.undef` when the caller
did not supply that slot. -/
structure Args where
  params : JsVal := .undef
  query : JsVal := .undef
  body : JsVal := .undef
  headers : JsVal := .undef
  deriving DecidableEq

/-- The `processedArgs` record built by `validateRequest`; a field holds
`JsVal.undef` when the slot was never assigned. -/
structure ProcessedArgs where
  params : JsVal := .undef
  query : JsVal := .undef
  body : JsVal := .undef
  headers : JsVal := .undef
  deriving DecidableEq

/-- `args.<slot>`. -/
def argOf (args : Args) : Slot → JsVal
  | .params => args.params
  | .query => args.query
  | .body => args.body
  | .headers => args.headers

/-- `processedArgs.<slot>`. -/
def paOf (pa : ProcessedArgs) : Slot → JsVal
  | .params => pa.params
  | .query => pa.query
  | .body => pa.body
  | .headers => pa.headers

/-- One slot of `validateRequest`:
`if (decl && arg !== undefined) processed = await createParseFn(decl)(arg);
else if (arg) processed = arg;` — an unassigned slot stays `undefined`. -/
def processSlot (decl : Option SchemaVal) (arg : JsVal) : Except JsErr JsVal :=
  match decl with
  | some (some shape) =>
      if arg.isUndef then .ok (if truthy arg then arg else .undef)
      else
        match createParseFn (some shape) with
        | .error e => .error e
        | .ok pf => pf arg
  | some none => .ok (if truthy arg then arg else .undef)
  | none => .ok (if truthy arg then arg else .undef)

/-- `HttpClientRequest.validateRequest`: the four slots processed in order,
with the first thrown error aborting the whole call. -/
def validateRequest (route : RouteDef) (args : Args) : Except JsErr ProcessedArgs := do
  let p ← processSlot (declOf route .params) args.params
  let q ← processSlot (declOf route .query) args.query
  let b ← processSlot (declOf route .body) args.body
  let h ← processSlot (declOf route .headers) args.headers
  return { params := p, query := q, body := b, headers := h }

-- ==================================================================
-- Header collection (the platform `Headers` class)
-- ==================================================================

/-- ASCII lower-casing of one character (header-name normalization). -/
def lowerChar (c : Char) : Char :=
  if 'A' ≤ c ∧ c ≤ 'Z' then Char.ofNat (c.toNat + 32) else c

/-- ASCII lower-casing of a string. -/
def lowerStr (s : String) : String :=
  ⟨s.data.map lowerChar⟩

/-- ASCII upper-casing of one character. -/
def upperChar (c : Char) : Char :=
  if 'a' ≤ c ∧ c ≤ 'z' then Char.ofNat (c.toNat - 32) else c

/-- `String.prototype.toUpperCase` (ASCII range). -/
def upperStr (s : String) : String :=
  ⟨s.data.map upperChar⟩

/-- Update-in-place-or-append on a (duplicate-free) collection. -/
def hsetKey (key v : String) : List (String × String) → List (String × String)
  | [] => [(key, v)]
  | p :: rest => if p.1 == key then (key, v) :: rest else p :: hsetKey key v rest

/-- `Headers.set`: header names are case-insensitive, so keys are stored
lower-cased; an existing entry is updated in place, a new one appended.
(A `Headers` built through `set` alone holds at most one entry per name.) -/
def hset (hs : List (String × String)) (k v : String) : List (String × String) :=
  hsetKey (lowerStr k) v hs

/-- First value stored under an exact key. -/
def lookupKey (hs : List (String × String)) (key : String) : Option String :=
  (hs.find? fun p => p.1 == key).map (·.2)

/-- `Headers.get` / `Headers.has` lookup (case-insensitive). -/
def hLookup (hs : List (String × String)) (k : String) : Option String :=
  lookupKey hs (lowerStr k)

-- ==================================================================
-- Client options (src/types/client-types.ts) and `deepMerge`
-- ==================================================================

/-- A transport response: a status code and the raw body text
(`json()` is `JSON.parse` of the body; `clone()` duplicates it). -/
structure ResponseV where
  status : Nat
  bodyText : String
  deriving DecidableEq

/-- The request descriptor handed to the transport function: final URL,
upper-cased method, assembled header collection, optional serialized body,
and the passthrough transport-option bag. -/
structure SentRequest where
  url : String
  method : String
  headers : List (String × String)
  body : Option String
  extra : List (String × String)
  deriving DecidableEq

/-- An injectable transport (`fetch`-like) function, modelled by the settled
result of its promise. -/
abbrev FetchFn := SentRequest → Except JsErr ResponseV

/-- The `headers` option: a static map, or a (possibly async) producer
function, modelled by its awaited result. -/
inductive HeaderSource where
  | staticMap (m : List (String × String))
  | producer (f : Unit → List (String × String))

/-- `ClientRequestOptions`.  `init` is the passthrough `RequestInit` bag of
transport options (cache mode, credentials, …); the client construction
surface excludes `method`/`headers`/`body` keys from it at the type level,
so it is modelled as an opaque string-valued bag that is forwarded verbatim
(the source spreads it into the fetch descriptor last). -/
structure ClientRequestOptions where
  fetchImpl : Option FetchFn := none
  headers : Option HeaderSource := none
  init : Option (List (String × String)) := none

/-- JS object spread-and-assign on string-valued records, as performed by
`deepMerge` one level down (`{...target}` then per-key assignment): target
entries keep their positions (overridden values in place), new source keys
are appended in source order. -/
def objAssignStr (target source : List (String × String)) : List (String × String) :=
  (target.map fun p => (p.1, ((source.find? fun q => q.1 == p.1).map (·.2)).getD p.2))
    ++ source.filter fun q => (target.find? fun p => p.1 == q.1).isNone

/-- `deepMerge(baseOptions, options)` restricted to the
`ClientRequestOptions` record: a key present in the per-call options wins;
when both sides hold plain objects the merge recurses key-by-key
(static header maps and the `init` bag), while a function value (fetch
override, header producer) replaces rather than merges. -/
def mergeOptions (base call : ClientRequestOptions) : ClientRequestOptions :=
  { fetchImpl :=
      match call.fetchImpl with
      | none => base.fetchImpl
      | some f => some f
    headers :=
      match call.headers with
      | none => base.headers
      | some ch =>
        match base.headers, ch with
        | some (.staticMap bm), .staticMap cm => some (.staticMap (objAssignStr bm cm))
        | _, c => some c
    init :=
      match call.init with
      | none => base.init
      | some ci =>
        match base.init with
        | some bi => some (objAssignStr bi ci)
        | none => some ci }

/-- Evaluate the configured header source (`typeof mergedOptions.headers ===
'function' ? await mergedOptions.headers() : mergedOptions.headers`). -/
def evalHeaderSource : Option HeaderSource → Option (List (String × String))
  | none => none
  | some (.staticMap m) => some m
  | some (.producer f) => some (f ())

-- ==================================================================
-- Responses and `validateResponse`
-- ==================================================================

/-- First response descriptor registered for a status code. -/
def lookupResponse (responses : List (Nat × ResponseDescr)) (status : Nat) :
    Option ResponseDescr :=
  (responses.find? fun p => p.1 == status).map (·.2)

/-- Does the route's descriptor for this status declare a (truthy) schema? -/
def declaresSchema (route : RouteDef) (status : Nat) : Bool :=
  match lookupResponse route.responses status with
  | some (.full _ (some (some _))) => true
  | _ => false

/-- `HttpClientRequest.validateResponse`: when the descriptor for the
received status declares a schema, clone the response, parse the clone's
body as JSON and run the validator — catching every failure and reducing it
to a `console.warn` diagnostic (returned here as the second component).
The original response is returned unaltered in every case. -/
def validateResponse (route : RouteDef) (resp : ResponseV) :
    ResponseV × List String :=
  match lookupResponse route.responses resp.status with
  | some (.full _ (some (some shape))) =>
      let attempt : Except JsErr Unit :=
        match jsonParse resp.bodyText with
        | .error e => .error e
        | .ok data =>
          match createParseFn (some shape) with
          | .error e => .error e
          | .ok pf =>
            match pf data with
            | .error e => .error e
            | .ok _ => .ok ()
      match attempt with
      | .ok _ => (resp, [])
      | .error _ => (resp, ["Response validation failed"])
  | _ => (resp, [])

-- ==================================================================
-- `HttpClientRequest.execute` (src/client.ts), staged
-- ==================================================================

/-- Does the string contain the character? (`String.prototype.includes`.) -/
def strContainsChar (s : String) (c : Char) : Bool :=
  s.data.any (· == c)

/-- URL after step 3 (`:param` substitution): applied only when
`processedArgs.params` is truthy. -/
def urlAfterParams (url0 : String) (pa : ProcessedArgs) : String :=
  if truthy pa.params then replaceUrlParams url0 (jsEntries pa.params) else url0

/-- Append a non-empty query string, reusing `&` when the URL already
contains `?`. -/
def appendQueryString (u s : String) : String :=
  if s ≠ "" then u ++ (if strContainsChar u '?' then "&" else "?") ++ s else u

/-- URL after steps 3–4 (param substitution, then query serialization when
`processedArgs.query` is truthy and produced a non-empty string). -/
def buildFinalUrl (url0 : String) (pa : ProcessedArgs) : String :=
  let u1 := urlAfterParams url0 pa
  if truthy pa.query then
    appendQueryString u1 (uspToString (buildSearchParams (jsEntries pa.query)))
  else u1

/-- Step 5: start from an empty `Headers`, `set` every validated
request-level header (values JS-string-coerced), then `set` every
instance-level configured header. -/
def assembleHeaders (pa : ProcessedArgs) (configured : Option HeaderSource) :
    List (String × String) :=
  let h0 : List (String × String) := []
  let h1 :=
    if truthy pa.headers then
      (jsEntries pa.headers).foldl (fun acc kv => hset acc kv.1 (jsToString kv.2)) h0
    else h0
  match evalHeaderSource configured with
  | some m => m.foldl (fun acc kv => hset acc kv.1 kv.2) h1
  | none => h1

/-- Step 6: body and Content-Type assembly.  Only for methods outside
`GET`/`HEAD` with a supplied processed body; Content-Type is auto-set from
the body's shape only when the collection does not already contain one and
`getContentType` yields a value. -/
def assembleBody (method : String) (pa : ProcessedArgs)
    (hs : List (String × String)) : Option String × List (String × String) :=
  let shouldHaveBody := !(method == "GET" || method == "HEAD")
  if shouldHaveBody && !pa.body.isUndef then
    let b := serializeBody pa.body
    let hs' :=
      if (hLookup hs "Content-Type").isNone then
        match getContentType pa.body with
        | some ct => hset hs "Content-Type" ct
        | none => hs
      else hs
    (b, hs')
  else (none, hs)

/-- The fetch descriptor built by `execute` for given processed arguments
and merged options (the constructor computed `mergePath baseUrl route.path`
and `route.method.toUpperCase()`). -/
def buildRequest (route : RouteDef) (baseUrl : String)
    (merged : ClientRequestOptions) (pa : ProcessedArgs) : SentRequest :=
  let methodU := upperStr route.method
  let url := buildFinalUrl (mergePath baseUrl route.path) pa
  let h := assembleHeaders pa merged.headers
  let bh := assembleBody methodU pa h
  { url := url
    method := methodU
    headers := bh.2
    body := bh.1
    extra := merged.init.getD [] }

/-- `HttpClientRequest.execute`, with the ambient `fetch` supplied as
`ambientFetch`.  Returns the settled call result together with the list of
requests actually dispatched through the transport (empty when validation
aborted the pipeline before network dispatch). -/
def executeT (route : RouteDef) (baseUrl : String)
    (baseOptions callOptions : ClientRequestOptions)
    (ambientFetch : FetchFn) (args : Args) :
    Except JsErr ResponseV × List SentRequest :=
  let merged := mergeOptions baseOptions callOptions
  match validateRequest route args with
  | .error e => (.error e, [])
  | .ok pa =>
    let req := buildRequest route baseUrl merged pa
    let fetchFn := merged.fetchImpl.getD ambientFetch
    match fetchFn req with
    | .error e => (.error e, [req])
    | .ok resp => (.ok (validateResponse route resp).1, [req])

-- ==================================================================
-- Client tree builder (`createClientFromRouteMap`, src/client.ts)
-- ==================================================================

mutual

/-- A value in a `RouteMap`: a route-definition leaf or a nested map. -/
inductive RouteMapV where
  | leaf (d : RouteDef)
  | node (entries : RouteEntries)

/-- The ordered entries of a (nested) route map. -/
inductive RouteEntries where
  | nil
  | cons (key : String) (value : RouteMapV) (rest : RouteEntries)

end

mutual

/-- A value in the built client: an endpoint closure (capturing base URL,
route and base options) or a nested sub-client. -/
inductive ClientV where
  | endpoint (baseUrl : String) (route : RouteDef) (baseOptions : ClientRequestOptions)
  | sub (entries : ClientEntries)

/-- The ordered entries of a (nested) client tree. -/
inductive ClientEntries where
  | nil
  | cons (key : String) (value : ClientV) (rest : ClientEntries)

end

/-- `isRouteDefinition` (duck-typing): a value is classified as a route
definition when it is an object whose `path` member is a string, whose
`method` member is a string and whose `responses` member is an object.  A
leaf satisfies all three by construction of `RouteDef`; an internal node's
members are themselves `RouteMapV` values (objects or sub-maps), never
strings, so the `typeof value.path === 'string'` probe fails on it. -/
def isRouteDefinitionV : RouteMapV → Bool
  | .leaf _ => true
  | .node _ => false

/-- `isObject` on a route-map value: leaves and nested maps are both
non-null, non-array objects. -/
def isObjectV : RouteMapV → Bool
  | .leaf _ => true
  | .node _ => true

mutual

/-- Dispatch on one route-map value, exactly as the builder's loop body:
`isRouteDefinition(value)` → endpoint closure; otherwise `isObject(value)`
→ recurse (both probes are decided by `isRouteDefinitionV` / `isObjectV`
above; no modelled value fails both, matching the source's silent skip of
such entries). -/
def clientOfValue (v : RouteMapV) (baseUrl : String)
    (baseOptions : ClientRequestOptions) : ClientV :=
  match v with
  | .leaf d => .endpoint baseUrl d baseOptions
  | .node es => .sub (clientOfEntries es baseUrl baseOptions)

/-- `createClientFromRouteMap`: one client entry per route-map entry. -/
def clientOfEntries (es : RouteEntries) (baseUrl : String)
    (baseOptions : ClientRequestOptions) : ClientEntries :=
  match es with
  | .nil => .nil
  | .cons k v rest =>
      .cons k (clientOfValue v baseUrl baseOptions) (clientOfEntries rest baseUrl baseOptions)

end

/-- Association lookup among route-map entries. -/
def assocM : RouteEntries → String → Option RouteMapV
  | .nil, _ => none
  | .cons k v rest, key => if k == key then some v else assocM rest key

/-- Association lookup among client entries. -/
def assocC : ClientEntries → String → Option ClientV
  | .nil, _ => none
  | .cons k v rest, key => if k == key then some v else assocC rest key

/-- Value of a route map at a non-empty key path. -/
def lookupM (es : RouteEntries) : List String → Option RouteMapV
  | [] => none
  | k :: rest =>
    match assocM es k with
    | none => none
    | some v =>
      match rest with
      | [] => some v
      | _ =>
        match v with
        | .leaf _ => none
        | .node es' => lookupM es' rest

/-- Value of a client tree at a non-empty key path. -/
def lookupC (es : ClientEntries) : List String → Option ClientV
  | [] => none
  | k :: rest =>
    match assocC es k with
    | none => none
    | some v =>
      match rest with
      | [] => some v
      | _ =>
        match v with
        | .endpoint _ _ _ => none
        | .sub es' => lookupC es' rest

/-- Keys of route-map entries, in order. -/
def keysM : RouteEntries → List String
  | .nil => []
  | .cons k _ rest => k :: keysM rest

/-- Keys of client entries, in order. -/
def keysC : ClientEntries → List String
  | .nil => []
  | .cons k _ rest => k :: keysC rest

-- ==================================================================
-- General lemmas about the pipeline
-- ==================================================================

/-- Response validation returns the original response in every branch. -/
theorem validateResponse_fst (route : RouteDef) (resp : ResponseV) :
    (validateResponse route resp).1 = resp := by
  unfold validateResponse
  repeat' split
  all_goals rfl

/-- When the whole of `validateRequest` succeeds, each slot's processing
succeeded with exactly the value stored for that slot. -/
theorem validateRequest_slot {route : RouteDef} {args : Args} {pa : ProcessedArgs}
    (h : validateRequest route args = .ok pa) (s : Slot) :
    processSlot (declOf route s) (argOf args s) = .ok (paOf pa s) := by
  unfold validateRequest at h
  cases hp : processSlot (declOf route .params) args.params with
  | error e => rw [hp] at h; simp [Bind.bind, Except.bind] at h
  | ok p =>
    rw [hp] at h
    cases hq : processSlot (declOf route .query) args.query with
    | error e => rw [hq] at h; simp [Bind.bind, Except.bind] at h
    | ok q =>
      rw [hq] at h
      cases hb : processSlot (declOf route .body) args.body with
      | error e => rw [hb] at h; simp [Bind.bind, Except.bind] at h
      | ok b =>
        rw [hb] at h
        cases hh : processSlot (declOf route .headers) args.headers with
        | error e => rw [hh] at h; simp [Bind.bind, Except.bind] at h
        | ok hv =>
          rw [hh] at h
          simp only [Bind.bind, Except.bind, pure, Except.pure, Except.ok.injEq] at h
          cases s <;> simp [argOf, paOf, ← h, hp, hq, hb, hh]

/-- If the processing of one slot throws while all earlier slots succeed,
`validateRequest` rejects with exactly that error. -/
theorem validateRequest_error {route : RouteDef} {args : Args} {s : Slot} {e : JsErr}
    (hfail : processSlot (declOf route s) (argOf args s) = .error e)
    (hearlier : ∀ s', slotIdx s' < slotIdx s →
      ∃ v, processSlot (declOf route s') (argOf args s') = .ok v) :
    validateRequest route args = .error e := by
  unfold validateRequest
  cases s with
  | params =>
    simp only [argOf] at hfail
    rw [hfail]
    rfl
  | query =>
    obtain ⟨p, hp⟩ := hearlier .params (by decide)
    simp only [argOf] at hfail hp
    rw [hp, hfail]
    rfl
  | body =>
    obtain ⟨p, hp⟩ := hearlier .params (by decide)
    obtain ⟨q, hq⟩ := hearlier .query (by decide)
    simp only [argOf] at hfail hp hq
    rw [hp, hq, hfail]
    rfl
  | headers =>
    obtain ⟨p, hp⟩ := hearlier .params (by decide)
    obtain ⟨q, hq⟩ := hearlier .query (by decide)
    obtain ⟨b, hb⟩ := hearlier .body (by decide)
    simp only [argOf] at hfail hp hq hb
    rw [hp, hq, hb, hfail]
    rfl

-- ==================================================================
-- C3: response validation never rejects the call
-- ==================================================================

/-- C3: for every route whose response descriptor for the received status
code declares a schema, and for every response body (including bodies the
schema rejects and bodies that are not valid JSON), the call resolves
successfully and returns the original response object unaltered — a
response-validation failure never propagates to the caller. -/
theorem claim_C3 (route : RouteDef) (baseUrl : String)
    (bOpts cOpts : ClientRequestOptions) (ambientFetch : FetchFn) (args : Args)
    (pa : ProcessedArgs) (resp : ResponseV)
    (hschema : declaresSchema route resp.status = true)
    (hva : validateRequest route args = .ok pa)
    (hfetch : ((mergeOptions bOpts cOpts).fetchImpl.getD ambientFetch)
      (buildRequest route baseUrl (mergeOptions bOpts cOpts) pa) = .ok resp) :
    (executeT route baseUrl bOpts cOpts ambientFetch args).1 = .ok resp := by
  unfold executeT
  rw [hva]
  simp only [hfetch, validateResponse_fst]

/-- Route used by the C3 witness: the declared 200-schema always throws. -/
def c3Route : RouteDef :=
  { path := "/u"
    method := "get"
    responses :=
      [(200, .full "ok" (some (some { parse := some fun _ => .error (.userError .null) })))] }

/-- Transport used by the C3 witness: it returns a body that is not JSON. -/
def c3Fetch : FetchFn := fun _ => .ok { status := 200, bodyText := "not json" }

/-- Witness for C3 at a concrete route, transport and non-JSON body. -/
theorem claim_C3_witness :
    (executeT c3Route "" {} {} c3Fetch {}).1 = .ok { status := 200, bodyText := "not json" } :=
  claim_C3 c3Route "" {} {} c3Fetch {} {} { status := 200, bodyText := "not json" }
    rfl rfl rfl

-- ==================================================================
-- C9: the client tree mirrors the route map
-- ==================================================================

/-- Association lookup commutes with client construction. -/
theorem assocC_clientOfEntries (baseUrl : String) (opts : ClientRequestOptions) :
    ∀ (es : RouteEntries) (k : String),
      assocC (clientOfEntries es baseUrl opts) k
        = (assocM es k).map (fun v => clientOfValue v baseUrl opts)
  | .nil, _ => rfl
  | .cons key v rest, k => by
      rw [clientOfEntries]
      by_cases h : key == k
      · simp [assocC, assocM, h]
      · simp only [assocC, assocM, h, if_false, Bool.false_eq_true]
        exact assocC_clientOfEntries baseUrl opts rest k

/-- Key-path lookup commutes with client construction. -/
theorem lookupC_clientOfEntries (baseUrl : String) (opts : ClientRequestOptions) :
    ∀ (p : List String) (es : RouteEntries),
      lookupC (clientOfEntries es baseUrl opts) p
        = (lookupM es p).map (fun v => clientOfValue v baseUrl opts)
  | [], _ => rfl
  | k :: rest, es => by
      rw [lookupC, lookupM, assocC_clientOfEntries]
      cases hm : assocM es k with
      | none => rfl
      | some v =>
          cases rest with
          | nil => rfl
          | cons r rs =>
              cases v with
              | leaf d => rfl
              | node es' =>
                  simp only [Option.map_some, clientOfValue]
                  exact lookupC_clientOfEntries baseUrl opts (r :: rs) es'

/-- Entry keys are preserved level by level. -/
theorem keysC_clientOfEntries (baseUrl : String) (opts : ClientRequestOptions) :
    ∀ es : RouteEntries, keysC (clientOfEntries es baseUrl opts) = keysM es
  | .nil => rfl
  | .cons k v rest => by
      rw [clientOfEntries, keysC, keysM, keysC_clientOfEntries baseUrl opts rest]

/-- C9: the built client is an exact structural mirror of the route map —
at every key path the client holds exactly the image of the route-map value
(an endpoint closure for a leaf route definition, a sub-tree for a nested
map), the keys agree level by level, and node classification is by
duck-typing (`isRouteDefinitionV` accepts exactly the route-definition
leaves, and both kinds of value pass the `isObject` check). -/
theorem claim_C9 :
    (∀ (baseUrl : String) (opts : ClientRequestOptions) (es : RouteEntries)
        (p : List String),
      lookupC (clientOfEntries es baseUrl opts) p
        = (lookupM es p).map (fun v => clientOfValue v baseUrl opts))
    ∧ (∀ (baseUrl : String) (opts : ClientRequestOptions) (es : RouteEntries),
        keysC (clientOfEntries es baseUrl opts) = keysM es)
    ∧ (∀ (baseUrl : String) (opts : ClientRequestOptions) (d : RouteDef),
        clientOfValue (.leaf d) baseUrl opts = .endpoint baseUrl d opts)
    ∧ (∀ d : RouteDef, isRouteDefinitionV (.leaf d) = true)
    ∧ (∀ es : RouteEntries, isRouteDefinitionV (.node es) = false)
    ∧ (∀ v : RouteMapV, isObjectV v = true) :=
  ⟨fun baseUrl opts es p => lookupC_clientOfEntries baseUrl opts p es,
   fun baseUrl opts es => keysC_clientOfEntries baseUrl opts es,
   fun _ _ _ => rfl,
   fun _ => rfl,
   fun _ => rfl,
   fun v => by cases v <;> rfl⟩

-- ==================================================================
-- C1: per-slot shape of the processed arguments
-- ==================================================================

/-- A value other than `undefined` fails the `isUndef` probe. -/
theorem isUndef_false_of_ne {v : JsVal} (h : v ≠ .undef) : v.isUndef = false := by
  cases v <;> first | exact absurd rfl h | rfl

/-- C1 (amended): for each slot, when the route declares a (non-null)
validator and the caller supplied a value, the processed arguments hold the
validator's result; when no validator is declared (or only the `null`
marker) a *truthy* supplied value passes through unchanged, while a falsy
supplied value is dropped; and an unsupplied slot is always absent from the
processed arguments. -/
theorem claim_C1 (route : RouteDef) (args : Args) (pa : ProcessedArgs) (s : Slot)
    (h : validateRequest route args = .ok pa) :
    (∀ shape : ParserShape, declOf route s = some (some shape) →
       argOf args s ≠ .undef →
       ∃ pf, createParseFn (some shape) = .ok pf
         ∧ pf (argOf args s) = .ok (paOf pa s))
    ∧ (declTruthy (declOf route s) = false → truthy (argOf args s) = true →
        paOf pa s = argOf args s)
    ∧ (declTruthy (declOf route s) = false → truthy (argOf args s) = false →
        paOf pa s = .undef)
    ∧ (argOf args s = .undef → paOf pa s = .undef) := by
  have hs := validateRequest_slot h s
  refine ⟨?_, ?_, ?_, ?_⟩
  · intro shape hd hne
    rw [hd] at hs
    rw [processSlot] at hs
    rw [isUndef_false_of_ne hne] at hs
    simp only [Bool.false_eq_true, if_false] at hs
    cases hpf : createParseFn (some shape) with
    | error e => rw [hpf] at hs; exact absurd hs (by simp)
    | ok pf => rw [hpf] at hs; exact ⟨pf, rfl, hs⟩
  · intro hdecl htr
    cases hd : declOf route s with
    | none =>
        rw [hd, processSlot, htr] at hs
        simpa using hs.symm
    | some sv =>
        cases sv with
        | none =>
            rw [hd, processSlot, htr] at hs
            simpa using hs.symm
        | some shape => rw [hd] at hdecl; exact absurd hdecl (by simp [declTruthy])
  · intro hdecl htr
    cases hd : declOf route s with
    | none =>
        rw [hd, processSlot, htr] at hs
        simpa using hs.symm
    | some sv =>
        cases sv with
        | none =>
            rw [hd, processSlot, htr] at hs
            simpa using hs.symm
        | some shape => rw [hd] at hdecl; exact absurd hdecl (by simp [declTruthy])
  · intro hu
    rw [hu] at hs
    cases hd : declOf route s with
    | none =>
        rw [hd, processSlot] at hs
        simpa [truthy] using hs.symm
    | some sv =>
        cases sv with
        | none =>
            rw [hd, processSlot] at hs
            simpa [truthy] using hs.symm
        | some shape =>
            rw [hd, processSlot] at hs
            simp only [JsVal.isUndef, if_true] at hs
            simpa [truthy] using hs.symm

/-- Route used by the C1 counterexample: no validators at all. -/
def c1Route : RouteDef := { path := "/x", method := "get" }

/-- Arguments used by the C1 counterexample: the caller supplies `null` for
the (unvalidated) body slot. -/
def c1Args : Args := { body := .null }

/-- Counterexample to C1 as stated: the caller supplied `null` for the
unvalidated `body` slot, yet the processed arguments leave the slot absent
(`undefined`) instead of containing the value unchanged. -/
theorem claim_C1_counterexample :
    validateRequest c1Route c1Args = .ok {}
    ∧ (Except.ok ({} : ProcessedArgs) : Except JsErr ProcessedArgs)
        ≠ .ok { body := JsVal.null } :=
  ⟨rfl, by decide⟩

/-- Validator shape used by the C1 witness: `parse` doubles a number. -/
def c1wShape : ParserShape :=
  { parse := some fun v =>
      match v with
      | .numV n => .ok (.numV (n * 2))
      | _ => .error (.userError .null) }

/-- Route used by the C1 witness: only `params` declares a validator. -/
def c1wRoute : RouteDef :=
  { path := "/x", method := "get", request := some { params := some (some c1wShape) } }

/-- Arguments used by the C1 witness: validated `params`, truthy unvalidated
`body`, falsy unvalidated `query`, unsupplied `headers`. -/
def c1wArgs : Args := { params := .numV 3, query := .boolV false, body := .strV "hi" }

/-- Processed arguments produced for the C1 witness. -/
def c1wPA : ProcessedArgs := { params := .numV 6, body := .strV "hi" }

/-- Witness for C1 exercising all four clauses at concrete inputs. -/
theorem claim_C1_witness :
    (∃ pf, createParseFn (some c1wShape) = .ok pf
       ∧ pf (argOf c1wArgs .params) = .ok (paOf c1wPA .params))
    ∧ paOf c1wPA .body = argOf c1wArgs .body
    ∧ paOf c1wPA .query = .undef
    ∧ paOf c1wPA .headers = .undef :=
  ⟨(claim_C1 c1wRoute c1wArgs c1wPA .params rfl).1 c1wShape rfl (by decide),
   (claim_C1 c1wRoute c1wArgs c1wPA .body rfl).2.1 rfl rfl,
   (claim_C1 c1wRoute c1wArgs c1wPA .query rfl).2.2.1 rfl rfl,
   (claim_C1 c1wRoute c1wArgs c1wPA .headers rfl).2.2.2 rfl⟩

-- ==================================================================
-- C2: a validation failure aborts before dispatch
-- ==================================================================

/-- C2: if the (first-failing) validator of a supplied slot throws, the
whole call rejects with exactly that validator's error and the transport is
never invoked — the dispatched-request log is empty. -/
theorem claim_C2 (route : RouteDef) (baseUrl : String)
    (bOpts cOpts : ClientRequestOptions) (ambientFetch : FetchFn) (args : Args)
    (s : Slot) (shape : ParserShape) (pf : ParseFn) (e : JsErr)
    (hd : declOf route s = some (some shape))
    (ha : argOf args s ≠ .undef)
    (hpf : createParseFn (some shape) = .ok pf)
    (he : pf (argOf args s) = .error e)
    (hearlier : ∀ s', slotIdx s' < slotIdx s →
      ∃ v, processSlot (declOf route s') (argOf args s') = .ok v) :
    executeT route baseUrl bOpts cOpts ambientFetch args = (.error e, []) := by
  have hfail : processSlot (declOf route s) (argOf args s) = .error e := by
    rw [hd, processSlot, isUndef_false_of_ne ha]
    simp only [Bool.false_eq_true, if_false, hpf, he]
  have hv := validateRequest_error hfail hearlier
  unfold executeT
  rw [hv]

/-- Validator shape used by the C2 witness: `parse` always throws. -/
def c2Shape : ParserShape :=
  { parse := some fun _ => .error (.userError (.strV "boom")) }

/-- Route used by the C2 witness: only `query` declares a validator. -/
def c2Route : RouteDef :=
  { path := "/u", method := "get", request := some { query := some (some c2Shape) } }

/-- Transport used by the C2 witness (it must never be reached). -/
def c2Fetch : FetchFn := fun _ => .ok { status := 200, bodyText := "" }

/-- Witness for C2: the failing query validator's error is the call result
and no request is dispatched. -/
theorem claim_C2_witness :
    executeT c2Route "" {} {} c2Fetch { query := .objV .nil }
      = (.error (.userError (.strV "boom")), []) :=
  claim_C2 c2Route "" {} {} c2Fetch { query := .objV .nil } .query c2Shape
    (fun _ => .error (.userError (.strV "boom"))) (.userError (.strV "boom"))
    rfl (by decide) rfl rfl
    (by
      intro s' h
      cases s' with
      | params => exact ⟨.undef, rfl⟩
      | query => exact absurd h (by decide)
      | body => exact absurd h (by decide)
      | headers => exact absurd h (by decide))

-- ==================================================================
-- C4: instance-level configured headers win on key collision
-- ==================================================================

/-- `hsetKey` stores the given value under the given key. -/
theorem lookupKey_hsetKey_self (key v : String) :
    ∀ hs, lookupKey (hsetKey key v hs) key = some v
  | [] => by simp [hsetKey, lookupKey]
  | p :: rest => by
      by_cases h : p.1 == key
      · simp [hsetKey, h, lookupKey]
      · simp only [hsetKey, h, Bool.false_eq_true, if_false]
        simp only [lookupKey, List.find?, h]
        exact lookupKey_hsetKey_self key v rest

/-- `hsetKey` leaves other keys untouched. -/
theorem lookupKey_hsetKey_other {key key' : String} (hne : key' ≠ key) (v : String) :
    ∀ hs, lookupKey (hsetKey key v hs) key' = lookupKey hs key'
  | [] => by
      simp only [hsetKey, lookupKey, List.find?]
      rw [show (key == key') = false from beq_eq_false_iff_ne.mpr (Ne.symm hne)]
  | p :: rest => by
      by_cases h : p.1 == key
      · simp only [hsetKey, h, if_true, lookupKey, List.find?]
        rw [show (key == key') = false from beq_eq_false_iff_ne.mpr (Ne.symm hne)]
        rw [show (p.1 == key') = false from
          beq_eq_false_iff_ne.mpr (by
            rw [beq_iff_eq] at h
            rw [h]
            exact Ne.symm hne)]
      · simp only [hsetKey, h, Bool.false_eq_true, if_false, lookupKey, List.find?]
        cases hpk : (p.1 == key') with
        | true => rfl
        | false => exact lookupKey_hsetKey_other hne v rest

/-- Folding `Headers.set` over entries whose names all differ (after
lower-casing) from `k` does not change the value stored under `k`. -/
theorem lookupKey_foldSet_absent {k : String} :
    ∀ (m : List (String × String)) (hs : List (String × String)),
      (∀ p ∈ m, lowerStr p.1 ≠ lowerStr k) →
      lookupKey (m.foldl (fun acc kv => hset acc kv.1 kv.2) hs) (lowerStr k)
        = lookupKey hs (lowerStr k)
  | [], _, _ => rfl
  | q :: rest, hs, hmem => by
      rw [List.foldl_cons]
      rw [lookupKey_foldSet_absent rest _
        (fun p hp => hmem p (List.mem_cons_of_mem _ hp))]
      exact lookupKey_hsetKey_other
        (fun hcon => hmem q (List.mem_cons_self _ _) hcon.symm) _ hs

/-- Folding `Headers.set` over a map containing `(k, v)` with every later
entry's name differing from `k` stores `v` under `k`. -/
theorem hLookup_foldSet_split {k v : String} (pre post : List (String × String))
    (hs : List (String × String))
    (hpost : ∀ p ∈ post, lowerStr p.1 ≠ lowerStr k) :
    hLookup ((pre ++ (k, v) :: post).foldl (fun acc kv => hset acc kv.1 kv.2) hs) k
      = some v := by
  rw [List.foldl_append, List.foldl_cons, hLookup]
  rw [lookupKey_foldSet_absent post _ hpost]
  exact lookupKey_hsetKey_self _ _ _

/-- Step 6 never removes or overwrites an already-present header value. -/
theorem hLookup_assembleBody {m : String} {pa : ProcessedArgs}
    {hs : List (String × String)} {k v : String}
    (hbase : hLookup hs k = some v) :
    hLookup (assembleBody m pa hs).2 k = some v := by
  unfold assembleBody
  dsimp only
  by_cases h1 : (!(m == "GET" || m == "HEAD") && !pa.body.isUndef) = true
  · rw [if_pos h1]
    dsimp only
    by_cases h2 : (hLookup hs "Content-Type").isNone = true
    · rw [if_pos h2]
      cases hct : getContentType pa.body with
      | none => exact hbase
      | some ct =>
          by_cases hk : lowerStr k = lowerStr "Content-Type"
          · exfalso
            unfold hLookup at hbase h2
            rw [hk] at hbase
            rw [hbase] at h2
            simp [Option.isNone] at h2
          · unfold hLookup hset
            rw [lookupKey_hsetKey_other hk]
            exact hbase
    · rw [if_neg h2]
      exact hbase
  · rw [if_neg h1]
    exact hbase

/-- The dispatched-request log after successful validation is exactly the
one built request, whatever the transport then does. -/
theorem executeT_log {route : RouteDef} {baseUrl : String}
    {bOpts cOpts : ClientRequestOptions} {ambientFetch : FetchFn} {args : Args}
    {pa : ProcessedArgs} (hva : validateRequest route args = .ok pa) :
    (executeT route baseUrl bOpts cOpts ambientFetch args).2
      = [buildRequest route baseUrl (mergeOptions bOpts cOpts) pa] := by
  unfold executeT
  rw [hva]
  dsimp only
  split <;> rfl

/-- C4: a header key set both by the per-call (validated request-level)
headers and by the instance-level configured headers ends up carrying the
instance-level value in every dispatched request: request-level headers are
applied first and the later, instance-level application wins. -/
theorem claim_C4 (route : RouteDef) (baseUrl : String)
    (bOpts cOpts : ClientRequestOptions) (ambientFetch : FetchFn) (args : Args)
    (pa : ProcessedArgs) (ih pre post : List (String × String)) (k v : String)
    (kr : String) (vr : JsVal)
    (hva : validateRequest route args = .ok pa)
    (hinst : evalHeaderSource (mergeOptions bOpts cOpts).headers = some ih)
    (hsplit : ih = pre ++ (k, v) :: post)
    (hpost : ∀ p ∈ post, lowerStr p.1 ≠ lowerStr k)
    (hreq : truthy pa.headers = true)
    (hreqkey : (kr, vr) ∈ jsEntries pa.headers)
    (hsame : lowerStr kr = lowerStr k) :
    (executeT route baseUrl bOpts cOpts ambientFetch args).2.map
      (fun r => hLookup r.headers k) = [some v] := by
  rw [executeT_log hva]
  simp only [List.map_cons, List.map_nil, List.cons.injEq, and_true]
  unfold buildRequest
  dsimp only
  apply hLookup_assembleBody
  unfold assembleHeaders
  rw [hinst, hsplit]
  exact hLookup_foldSet_split pre post _ hpost

/-- Route used by the C4 witness. -/
def c4Route : RouteDef := { path := "/u", method := "get" }

/-- Transport stub used by the C4 witness. -/
def c4Fetch : FetchFn := fun _ => .ok { status := 200, bodyText := "" }

/-- Base options used by the C4 witness: global header `A = 2`. -/
def c4Base : ClientRequestOptions := { headers := some (.staticMap [("A", "2")]) }

/-- Arguments used by the C4 witness: per-call header `A = 1`. -/
def c4Args : Args := { headers := JsVal.obj [("A", .strV "1")] }

/-- Witness for C4: the sent header is `A = 2`, the instance-level value. -/
theorem claim_C4_witness :
    (executeT c4Route "" c4Base {} c4Fetch c4Args).2.map
      (fun r => hLookup r.headers "A") = [some "2"] :=
  claim_C4 c4Route "" c4Base {} c4Fetch c4Args
    { headers := JsVal.obj [("A", .strV "1")] } [("A", "2")] [] [] "A" "2"
    "A" (.strV "1") rfl rfl rfl (by intro p hp; cases hp) rfl (by decide) rfl

-- ==================================================================
-- C5: the Standard Schema branch of the adapter
-- ==================================================================

/-- C5 (amended): for every validator classified into the Standard Schema
convention (no other recognized method, so the chain reaches the
capability-negotiation branch) and every input, the produced parse function
calls the negotiated `validate` entry point and then fails with a
structured validation error wrapping the issues if and only if the result
carries a *present* issues collection — even an empty one, since the source
tests `if (result.issues)` for presence, not non-emptiness; otherwise it
returns the result's `value` field. -/
theorem claim_C5 (p : ParserShape) (f : JsVal → StdResult) (v : JsVal)
    (hpa : p.parseAsync = none) (hp : p.parse = none)
    (hvs : p.validateSync = none) (hcr : p.create = none)
    (has : p.assertFn = none) (hstd : p.standard = some f) :
    (createParseFn (some p)).map (fun pf => pf v)
      = .ok (match (f v).issues with
             | some iss => .error (.standardSchemaError iss)
             | none => .ok (f v).value) := by
  have hchain : parseFnChain p
      = .ok (fun v =>
          let r := f v
          match r.issues with
          | some iss => .error (.standardSchemaError iss)
          | none => .ok r.value) := by
    unfold parseFnChain
    rw [hpa, hp, hvs, hcr, has, hstd]
  unfold createParseFn
  dsimp only
  rw [has]
  cases hc : p.callable with
  | none =>
      dsimp only
      rw [hchain]
      rfl
  | some g =>
      rw [show p.standard.isSome = true from by rw [hstd]; rfl]
      dsimp only
      rw [hchain]
      rfl

/-- Standard-Schema-only validator shape. -/
def stdOnlyShape (f : JsVal → StdResult) : ParserShape := { standard := some f }

/-- The `validate` entry point used by the C5 counterexample: it reports a
*present but empty* issues collection. -/
def c5EmptyIssues : JsVal → StdResult :=
  fun _ => { issues := some [], value := .strV "ok" }

/-- Counterexample to C5 as stated: the issues collection is empty (hence
not non-empty), yet the parse function still fails — it does not return the
result's `value` field. -/
theorem claim_C5_counterexample :
    (createParseFn (some (stdOnlyShape c5EmptyIssues))).map (fun pf => pf .null)
        = .ok (.error (.standardSchemaError []))
    ∧ (createParseFn (some (stdOnlyShape c5EmptyIssues))).map (fun pf => pf .null)
        ≠ .ok (.ok (.strV "ok")) :=
  ⟨rfl, by decide⟩

/-- A `validate` entry point distinguishing success from failure, used by
the C5 witness. -/
def c5Validate : JsVal → StdResult :=
  fun v =>
    match v with
    | .numV n => { issues := none, value := .numV (n + 1) }
    | _ => { issues := some ["expected a number"], value := .undef }

/-- Witness for C5 at concrete inputs: a clean result returns the `value`
field, a result carrying issues throws the structured error. -/
theorem claim_C5_witness :
    (createParseFn (some (stdOnlyShape c5Validate))).map (fun pf => pf (.numV 1))
        = .ok (.ok (.numV 2))
    ∧ (createParseFn (some (stdOnlyShape c5Validate))).map (fun pf => pf .null)
        = .ok (.error (.standardSchemaError ["expected a number"])) :=
  ⟨claim_C5 (stdOnlyShape c5Validate) c5Validate (.numV 1) rfl rfl rfl rfl rfl rfl,
   claim_C5 (stdOnlyShape c5Validate) c5Validate .null rfl rfl rfl rfl rfl rfl⟩

-- ==================================================================
-- C6: URL parameter substitution
-- ==================================================================

/-- A replacement pass is the identity when the template has no bounded
occurrence of the key. -/
theorem replaceAux_no_occ {key val : List Char} :
    ∀ (fuel : Nat) (l : List Char), hasBoundedOcc key l = false →
      replaceAux key val fuel l = l
  | 0, _, _ => rfl
  | _ + 1, [], _ => rfl
  | fuel + 1, c :: rest, h => by
      rw [hasBoundedOcc, Bool.or_eq_false_iff] at h
      rw [replaceAux, h.1]
      simp only [Bool.false_eq_true, if_false]
      rw [replaceAux_no_occ fuel rest h.2]

/-- C6 (amended): substitution is keyed by name — a params key with no
occurrence of `:key` bounded by `/`, end of string, `?` or `#` leaves the
template unchanged (so a `:identity` placeholder is unaffected by an `id`
entry), and `/users/:id/:idx` with `{id:"5", idx:"9"}` yields `/users/5/9`
in either entry order.  Entries are processed sequentially in the given
order; the result is not order-independent in general (see the
counterexample). -/
theorem claim_C6 :
    (∀ key val s : String, hasBoundedOcc key.data s.data = false →
      replaceOneKey key val s = s)
    ∧ replaceUrlParams "/users/:id/:idx"
        [("id", .strV "5"), ("idx", .strV "9")] = "/users/5/9"
    ∧ replaceUrlParams "/users/:id/:idx"
        [("idx", .strV "9"), ("id", .strV "5")] = "/users/5/9"
    ∧ replaceUrlParams "/users/:identity" [("id", .strV "5")] = "/users/:identity" :=
  ⟨fun _ val s h => congrArg String.mk (replaceAux_no_occ s.data.length s.data h),
   by decide, by decide, by decide⟩

/-- Counterexample to C6 as stated: substitution is not order-independent —
with template `:a:b/` and an empty value for `b`, substituting `b` first
exposes the `/` boundary and lets `:a` match, while the other order leaves
`:a` in place. -/
theorem claim_C6_counterexample :
    replaceUrlParams ":a:b/" [("a", .strV "x"), ("b", .strV "")]
      ≠ replaceUrlParams ":a:b/" [("b", .strV ""), ("a", .strV "x")] := by
  decide

/-- Witness for C6: the no-bounded-occurrence clause applied to the
`:identity` template. -/
theorem claim_C6_witness :
    hasBoundedOcc "id".data "/users/:identity".data = false
    ∧ replaceOneKey "id" "5" "/users/:identity" = "/users/:identity" :=
  ⟨by decide, claim_C6.1 "id" "5" "/users/:identity" (by decide)⟩

-- ==================================================================
-- C7: query serialization
-- ==================================================================

/-- Pairs contributed by one query entry, as amended: nullish values are
omitted, arrays contribute one pair per non-nullish element in order,
every other value is string-coerced. -/
def entryPairsSpec (kv : String × JsVal) : List (String × String) :=
  match kv.2 with
  | .undef => []
  | .null => []
  | .arrV items =>
      items.toList.filterMap fun item =>
        match item with
        | .undef => none
        | .null => none
        | v => some (kv.1, jsToString v)
  | v => [(kv.1, jsToString v)]

/-- `URLSearchParams.set` on an absent key appends. -/
theorem uspSet_append {k v : String} :
    ∀ ps, (∀ p ∈ ps, p.1 ≠ k) → uspSet ps k v = ps ++ [(k, v)]
  | [], _ => rfl
  | p :: rest, h => by
      rw [uspSet]
      rw [show (p.1 == k) = false from
        beq_eq_false_iff_ne.mpr (h p (List.mem_cons_self _ _))]
      simp only [Bool.false_eq_true, if_false, List.cons_append, List.cons.injEq, true_and]
      exact uspSet_append rest fun q hq => h q (List.mem_cons_of_mem _ hq)

/-- The array loop of `buildSearchParams` appends one pair per non-nullish
element, in order. -/
theorem foldAppend_pairs {k : String} :
    ∀ (l : List JsVal) (acc : List (String × String)),
      l.foldl
        (fun acc item =>
          match item with
          | .undef => acc
          | .null => acc
          | v => uspAppend acc k (jsToString v)) acc
      = acc ++ l.filterMap fun item =>
          match item with
          | .undef => none
          | .null => none
          | v => some (k, jsToString v)
  | [], acc => by simp
  | x :: rest, acc => by
      rw [List.foldl_cons, List.filterMap_cons]
      cases x <;> rw [foldAppend_pairs rest] <;> simp [uspAppend]

/-- Every pair contributed by the array loop carries the entry's key. -/
theorem entryPairs_key {k : String} {p : String × String} :
    ∀ {items : List JsVal},
      p ∈ (items.filterMap fun item =>
        match item with
        | .undef => none
        | .null => none
        | v => some (k, jsToString v)) → p.1 = k := by
  intro items hp
  obtain ⟨a, _, hfa⟩ := List.mem_filterMap.mp hp
  cases a <;>
    first
      | exact (congrArg Prod.fst (Option.some.inj hfa)).symm
      | exact absurd hfa (by simp)

/-- One `buildSearchParams` iteration appends exactly the entry's
contributed pairs, provided the accumulator does not yet hold the key. -/
theorem buildSearchStep_eq_append {k : String} {v : JsVal}
    (acc : List (String × String)) (hacck : ∀ p ∈ acc, p.1 ≠ k) :
    buildSearchStep acc (k, v) = acc ++ entryPairsSpec (k, v) := by
  cases v with
  | undef => simp [buildSearchStep, entryPairsSpec]
  | null => simp [buildSearchStep, entryPairsSpec]
  | arrV items => exact foldAppend_pairs items.toList acc
  | boolV b => exact uspSet_append acc hacck
  | numV n => exact uspSet_append acc hacck
  | strV s => exact uspSet_append acc hacck
  | objV fs => exact uspSet_append acc hacck

/-- Every pair contributed by one entry carries that entry's key. -/
theorem entryPairsSpec_key {k : String} {v : JsVal} {p : String × String}
    (hp : p ∈ entryPairsSpec (k, v)) : p.1 = k := by
  cases v with
  | undef => cases hp
  | null => cases hp
  | arrV items => exact entryPairs_key hp
  | boolV b => rw [List.mem_singleton.mp hp]
  | numV n => rw [List.mem_singleton.mp hp]
  | strV s => rw [List.mem_singleton.mp hp]
  | objV fs => rw [List.mem_singleton.mp hp]

/-- Folding `buildSearchStep` over entries with pairwise-distinct keys that
are all absent from the accumulator appends each entry's contributed
pairs. -/
theorem buildSearchStep_foldl :
    ∀ (q : List (String × JsVal)) (acc : List (String × String)),
      (q.map Prod.fst).Nodup →
      (∀ kk ∈ q.map Prod.fst, ∀ p ∈ acc, p.1 ≠ kk) →
      q.foldl buildSearchStep acc = acc ++ q.flatMap entryPairsSpec
  | [], acc, _, _ => by simp
  | (k, v) :: rest, acc, hnd, hdisj => by
      rw [List.map_cons] at hnd
      have hnd2 := List.nodup_cons.mp hnd
      have hdisjrest : ∀ kk ∈ rest.map Prod.fst, ∀ p ∈ acc, p.1 ≠ kk :=
        fun kk hkk =>
          hdisj kk (by rw [List.map_cons]; exact List.mem_cons_of_mem _ hkk)
      have hacck : ∀ p ∈ acc, p.1 ≠ k :=
        hdisj k (by rw [List.map_cons]; exact List.mem_cons_self _ _)
      rw [List.foldl_cons, List.flatMap_cons]
      rw [buildSearchStep_eq_append acc hacck]
      rw [buildSearchStep_foldl rest _ hnd2.2 (by
        intro kk hkk p hp
        rcases List.mem_append.mp hp with ha | hb
        · exact hdisjrest kk hkk p ha
        · rw [entryPairsSpec_key hb]
          intro hkeq
          exact hnd2.1 (hkeq ▸ hkk))]
      rw [List.append_assoc]

/-- C7 (amended): query serialization omits entries whose value is
`undefined` or `null`; an array value produces one repeated
`key=stringified-element` pair per non-nullish element, in array order
(nullish elements are skipped); every other value is stringified.  The
concrete query `{page:1, tags:["a","b"], x:undefined}` yields exactly
`page=1&tags=a&tags=b`, with no `x` key and in that relative order; and a
non-empty query string is appended to the URL with `&` when the URL
already contains `?`, else with `?`. -/
theorem claim_C7 :
    (∀ q : List (String × JsVal), (q.map Prod.fst).Nodup →
        buildSearchParams q = q.flatMap entryPairsSpec)
    ∧ (∀ (k : String) (q : List (String × JsVal)),
        buildSearchParams ((k, .undef) :: q) = buildSearchParams q)
    ∧ (∀ (k : String) (q : List (String × JsVal)),
        buildSearchParams ((k, .null) :: q) = buildSearchParams q)
    ∧ uspToString (buildSearchParams
        [("page", .numV 1), ("tags", JsVal.arr [.strV "a", .strV "b"]), ("x", .undef)])
        = "page=1&tags=a&tags=b"
    ∧ (∀ u s : String, s ≠ "" →
        appendQueryString u s
          = u ++ (if strContainsChar u '?' then "&" else "?") ++ s)
    ∧ (∀ (url0 : String) (pa : ProcessedArgs), truthy pa.query = true →
        buildFinalUrl url0 pa
          = appendQueryString (urlAfterParams url0 pa)
              (uspToString (buildSearchParams (jsEntries pa.query)))) :=
  ⟨fun q hnd => buildSearchStep_foldl q [] hnd (by intro kk _ p hp; cases hp),
   fun _ _ => rfl,
   fun _ _ => rfl,
   by decide,
   fun u s hs => by rw [appendQueryString, if_pos hs],
   fun url0 pa htr => by rw [buildFinalUrl, htr]; rfl⟩

/-- Counterexample to C7 as stated: the array `[null]` has one element, but
serialization produces no pair at all for it — not one pair per element. -/
theorem claim_C7_counterexample :
    (buildSearchParams [("tags", JsVal.arr [JsVal.null])]).length ≠ 1 := by
  decide

/-- Witness for C7: the general characterization applied to the concrete
example query, and the append rule applied to a URL already carrying `?`. -/
theorem claim_C7_witness :
    buildSearchParams
        [("page", .numV 1), ("tags", JsVal.arr [.strV "a", .strV "b"]), ("x", .undef)]
      = [("page", "1"), ("tags", "a"), ("tags", "b")]
    ∧ appendQueryString "/u?a=1" "b=2" = "/u?a=1&b=2" := by
  have h := claim_C7.1
    [("page", .numV 1), ("tags", JsVal.arr [.strV "a", .strV "b"]), ("x", .undef)]
    (by decide)
  have h2 := claim_C7.2.2.2.2.1 "/u?a=1" "b=2" (by decide)
  rw [h, h2]
  exact ⟨by decide, by decide⟩

-- ==================================================================
-- C8: base URL and path joining
-- ==================================================================

/-- The head of a `dropWhile` result never satisfies the predicate. -/
theorem head_dropWhile_false {p : Char → Bool} :
    ∀ (l : List Char) {c : Char}, (l.dropWhile p).head? = some c → p c = false
  | [], _, h => by simp [List.dropWhile] at h
  | x :: rest, c, h => by
      rw [List.dropWhile] at h
      cases hx : p x with
      | true => rw [hx] at h; exact head_dropWhile_false rest h
      | false =>
          rw [hx] at h
          simp only [List.head?_cons, Option.some.injEq] at h
          rw [← h]
          exact hx

/-- A `dropWhile` whose input's head fails the predicate is the identity. -/
theorem dropWhile_of_head_false {p : Char → Bool} :
    ∀ (l : List Char), (l.head?.map p).getD false = false → l.dropWhile p = l
  | [], _ => rfl
  | x :: rest, h => by
      have hx : p x = false := by simpa using h
      rw [List.dropWhile, hx]

/-- C8 (amended): `mergePath` joins the base URL stripped of all trailing
slashes and the path stripped of all leading slashes with exactly one `/`
(no double slash and no missing slash at the junction, whatever the slash
combination); an absent (empty-string) base URL yields `/` followed by the
stripped path, which equals the path itself exactly when the path starts
with a single `/`. -/
theorem claim_C8 :
    (∀ base path : String,
      mergePath base path = rstripSlashes base ++ "/" ++ lstripSlashes path)
    ∧ (∀ base : String,
        ((rstripSlashes base).data.getLast? == some '/') = false)
    ∧ (∀ path : String,
        ((lstripSlashes path).data.head? == some '/') = false)
    ∧ (∀ path : String, mergePath "" path = "/" ++ lstripSlashes path)
    ∧ (∀ tail : List Char, ((tail.head?.map (· == '/')).getD false) = false →
        mergePath "" ⟨'/' :: tail⟩ = ⟨'/' :: tail⟩) := by
  refine ⟨fun _ _ => rfl, ?_, ?_, fun _ => rfl, ?_⟩
  · intro base
    rw [rstripSlashes]
    rw [show (String.mk ((base.data.reverse.dropWhile (· == '/')).reverse)).data
        = (base.data.reverse.dropWhile (· == '/')).reverse from rfl]
    rw [List.getLast?_reverse]
    cases hh : (base.data.reverse.dropWhile (· == '/')).head? with
    | none => rfl
    | some c =>
        have := head_dropWhile_false (base.data.reverse) hh
        simp only [Option.some_beq_some]
        exact this
  · intro path
    rw [lstripSlashes]
    cases hh : (path.data.dropWhile (· == '/')).head? with
    | none => rfl
    | some c =>
        have := head_dropWhile_false (path.data) hh
        simp only [Option.some_beq_some]
        exact this
  · intro tail h
    have hd : tail.dropWhile (· == '/') = tail := dropWhile_of_head_false tail h
    show String.mk ([] ++ '/' :: ('/' :: tail).dropWhile (· == '/')) = String.mk ('/' :: tail)
    rw [List.dropWhile]
    simp only [beq_self_eq_true, List.nil_append]
    rw [hd]

/-- Counterexample to C8 as stated: with an empty base URL the result is not
the path itself when the path lacks a leading slash. -/
theorem claim_C8_counterexample : mergePath "" "users" ≠ "users" := by
  decide

/-- Witness for C8: the path-itself clause applied to `/users`. -/
theorem claim_C8_witness : mergePath "" "/users" = "/users" :=
  claim_C8.2.2.2.2 "users".data (by decide)

-- ==================================================================
-- C10: array bodies are JSON-serialized but get no auto Content-Type
-- ==================================================================

/-- Step 6 on an array body for a body-carrying method: the body is the
JSON serialization and the header collection is left untouched. -/
theorem assembleBody_arr {m : String} {pa : ProcessedArgs} {xs : JsList}
    (hm : (m == "GET" || m == "HEAD") = false) (hbody : pa.body = .arrV xs)
    (hs : List (String × String)) :
    assembleBody m pa hs = (jsonStringify (.arrV xs), hs) := by
  have h1 : (!(m == "GET" || m == "HEAD") && !pa.body.isUndef) = true := by
    rw [hm, hbody]; rfl
  unfold assembleBody
  rw [if_pos h1, hbody]
  cases hn : (hLookup hs "Content-Type").isNone with
  | true => rfl
  | false => rfl

/-- Step 6 on a plain-object body for a body-carrying method with no
explicit Content-Type: the body is the JSON serialization and
`Content-Type: application/json` is auto-set. -/
theorem assembleBody_obj {m : String} {pa : ProcessedArgs} {fs : JsFields}
    (hm : (m == "GET" || m == "HEAD") = false) (hbody : pa.body = .objV fs)
    (hs : List (String × String)) (hct : hLookup hs "Content-Type" = none) :
    assembleBody m pa hs
      = (jsonStringify (.objV fs), hset hs "Content-Type" "application/json") := by
  have h1 : (!(m == "GET" || m == "HEAD") && !pa.body.isUndef) = true := by
    rw [hm, hbody]; rfl
  unfold assembleBody
  rw [if_pos h1, hbody, hct]
  rfl

/-- C10: on a non-GET/HEAD request, an array body is dispatched as the JSON
serialization of the array with no auto-set Content-Type (content-type
inference yields nothing for arrays, so the dispatched headers equal the
assembled header collection unchanged), whereas a plain-object body under a
collection with no explicit Content-Type is dispatched with
`Content-Type: application/json`. -/
theorem claim_C10 (route : RouteDef) (baseUrl : String)
    (bOpts cOpts : ClientRequestOptions) (ambientFetch : FetchFn) (args : Args)
    (pa : ProcessedArgs)
    (hva : validateRequest route args = .ok pa)
    (hm : (upperStr route.method == "GET" || upperStr route.method == "HEAD") = false) :
    (∀ xs : JsList, getContentType (.arrV xs) = none)
    ∧ (∀ xs : JsList, pa.body = .arrV xs →
        (executeT route baseUrl bOpts cOpts ambientFetch args).2.map SentRequest.body
          = [jsonStringify (.arrV xs)]
        ∧ (executeT route baseUrl bOpts cOpts ambientFetch args).2.map SentRequest.headers
          = [assembleHeaders pa (mergeOptions bOpts cOpts).headers])
    ∧ (∀ fs : JsFields, pa.body = .objV fs →
        hLookup (assembleHeaders pa (mergeOptions bOpts cOpts).headers) "Content-Type"
          = none →
        (executeT route baseUrl bOpts cOpts ambientFetch args).2.map SentRequest.body
          = [jsonStringify (.objV fs)]
        ∧ (executeT route baseUrl bOpts cOpts ambientFetch args).2.map
            (fun r => hLookup r.headers "Content-Type") = [some "application/json"]) := by
  have hlog := @executeT_log route baseUrl bOpts cOpts ambientFetch args pa hva
  refine ⟨fun _ => rfl, ?_, ?_⟩
  · intro xs hbody
    constructor
    · rw [hlog, List.map_cons, List.map_nil]
      unfold buildRequest
      dsimp only
      rw [assembleBody_arr hm hbody]
    · rw [hlog, List.map_cons, List.map_nil]
      unfold buildRequest
      dsimp only
      rw [assembleBody_arr hm hbody]
  · intro fs hbody hct
    constructor
    · rw [hlog, List.map_cons, List.map_nil]
      unfold buildRequest
      dsimp only
      rw [assembleBody_obj hm hbody _ hct]
    · rw [hlog, List.map_cons, List.map_nil]
      unfold buildRequest
      dsimp only
      rw [assembleBody_obj hm hbody _ hct]
      rw [List.cons.injEq]
      refine ⟨?_, rfl⟩
      exact lookupKey_hsetKey_self _ _ _

/-- Route used by the C10 witness: a POST endpoint. -/
def c10Route : RouteDef := { path := "/u", method := "post" }

/-- Transport stub used by the C10 witness. -/
def c10Fetch : FetchFn := fun _ => .ok { status := 200, bodyText := "" }

/-- Processed arguments for the C10 witness's array-body call. -/
def c10paArr : ProcessedArgs := { body := JsVal.arr [.numV 1] }

/-- Processed arguments for the C10 witness's object-body call. -/
def c10paObj : ProcessedArgs := { body := JsVal.obj [("a", .numV 1)] }

/-- Witness for C10 at concrete calls: the array body dispatches as `[1]`
with untouched headers, the object body auto-sets the JSON Content-Type. -/
theorem claim_C10_witness :
    (executeT c10Route "" {} {} c10Fetch { body := JsVal.arr [.numV 1] }).2.map
        SentRequest.body = [jsonStringify (JsVal.arr [.numV 1])]
    ∧ (executeT c10Route "" {} {} c10Fetch { body := JsVal.arr [.numV 1] }).2.map
        SentRequest.headers = [assembleHeaders c10paArr (mergeOptions {} {}).headers]
    ∧ (executeT c10Route "" {} {} c10Fetch { body := JsVal.obj [("a", .numV 1)] }).2.map
        (fun r => hLookup r.headers "Content-Type") = [some "application/json"] :=
  ⟨((claim_C10 c10Route "" {} {} c10Fetch { body := JsVal.arr [.numV 1] } c10paArr
      rfl rfl).2.1 (JsList.ofList [.numV 1]) rfl).1,
   ((claim_C10 c10Route "" {} {} c10Fetch { body := JsVal.arr [.numV 1] } c10paArr
      rfl rfl).2.1 (JsList.ofList [.numV 1]) rfl).2,
   ((claim_C10 c10Route "" {} {} c10Fetch { body := JsVal.obj [("a", .numV 1)] } c10paObj
      rfl rfl).2.2 (JsFields.ofList [("a", .numV 1)]) rfl rfl).2⟩

end SafeHttp
